import Mathlib

/-!
Shallow embedding of the vector-index lifecycle of `vision-rag-app`:
the embed-worker document build and session merge
(`amplify/functions/embed-worker/src/handler.py`), the batch index merger
(`amplify/functions/index-merger/src/handler.py`), and the search router
(`amplify/functions/search-router/src/handler.py`).

Embedding vectors are modelled as `List ℚ`; a Faiss `IndexFlatL2` is its
list of stored vectors (plus, for the merger, its dimension `d`); the
object store interactions are modelled by passing the loaded contents
(`Option`-valued where a download or parse can fail) explicitly.
-/

/-- An embedding vector (the float components, modelled over ℚ). -/
abbrev EmbeddingVector := List ℚ

/-- One entry of the `images` list in a document metadata sidecar, as written
by the embed worker: `{'key', 'bucket', 'index', 'page_file'}` where `index`
is `len(metadata['images'])` at append time. -/
structure ImageRec where
  key : String
  bucket : String
  index : Nat
  page_file : String
deriving DecidableEq, Repr

/-- A document metadata sidecar `{'document_id', 'user_id', 'images'}`. -/
structure DocMeta where
  document_id : String
  user_id : String
  images : List ImageRec
deriving DecidableEq, Repr

/-- The session-level metadata plus the session Faiss index contents:
`{'session_id', 'documents': {docId: DocMeta}}` together with the vectors
stored in `sessions/{sessionId}/index.faiss`.  The Python `dict` keyed by
document id is modelled as an insertion-ordered association list. -/
structure SessionIndex where
  vectors : List EmbeddingVector
  session_id : String
  documents : List (String × DocMeta)
deriving DecidableEq, Repr

/-- Python dict assignment `d[k] = v`: replace the value in place when the
key is present (insertion order kept), otherwise append at the end. -/
def upsert (l : List (String × DocMeta)) (k : String) (v : DocMeta) :
    List (String × DocMeta) :=
  match l with
  | [] => [(k, v)]
  | (k', v') :: rest =>
      if k' = k then (k, v) :: rest else (k', v') :: upsert rest k v

/-- What loading the existing session index+metadata from the object store
can yield inside the `try:` block of the embed worker (handler.py lines
128-147): both absent / index download or `faiss.read_index` failing /
index readable but the metadata JSON unreadable / both readable. -/
inductive LoadResult where
  | absent
  | indexCorrupt
  | metaCorrupt (s : SessionIndex)
  | ok (s : SessionIndex)
deriving DecidableEq, Repr

/-- One page image listed for the document: its S3 key and the result of
`generate_image_embedding` (`none` models the function returning `None`). -/
structure PageInput where
  key : String
  embedding : Option EmbeddingVector
deriving DecidableEq, Repr

/-- `bs` is a prefix of `as`, on character lists. -/
def startsWithList : List Char → List Char → Bool
  | _, [] => true
  | [], _ :: _ => false
  | a :: as, b :: bs => a = b && startsWithList as bs

/-- Python `s.endswith(post)` (computable by kernel reduction, unlike
`String.endsWith`). -/
def strEndsWith (s post : String) : Bool :=
  startsWithList s.data.reverse post.data.reverse

/-- Python `needle in hay` (contiguous substring test) on character lists. -/
def containsList (hay needle : List Char) : Bool :=
  match hay with
  | [] => needle.isEmpty
  | _ :: rest => startsWithList hay needle || containsList rest needle

/-- Python `needle in hay` on strings. -/
def strContains (hay needle : String) : Bool :=
  containsList hay.data needle.data

/-- Split a character list at every occurrence of `c`. -/
def splitChar (c : Char) : List Char → List Char → List (List Char)
  | [], acc => [acc.reverse]
  | x :: xs, acc =>
      if x = c then acc.reverse :: splitChar c xs [] else splitChar c xs (x :: acc)

/-- `Path(image_key).name`: the final path component. -/
def baseName (k : String) : String :=
  ⟨(splitChar '/' k.data []).getLastD []⟩

/-- The per-page loop of the embed worker (handler.py lines 74-104):
skip keys not ending in `.png`, skip pages whose embedding is `None`,
otherwise append the vector to the Faiss index and append a record with
`index = len(metadata['images'])` (the length before the append). -/
def buildPages (bucket : String) (vecs : List EmbeddingVector)
    (recs : List ImageRec) : List PageInput → List EmbeddingVector × List ImageRec
  | [] => (vecs, recs)
  | p :: rest =>
      if strEndsWith p.key ".png" then
        match p.embedding with
        | some v =>
            buildPages bucket (vecs ++ [v])
              (recs ++ [{ key := p.key, bucket := bucket,
                          index := recs.length, page_file := baseName p.key }]) rest
        | none => buildPages bucket vecs recs rest
      else buildPages bucket vecs recs rest

/-- The whole document build: the loop started on an empty Faiss index and
an empty `metadata['images']` list. -/
def buildDocument (bucket : String) (pages : List PageInput) :
    List EmbeddingVector × List ImageRec :=
  buildPages bucket [] [] pages

/-- The session merge of one freshly built document (handler.py lines
128-155).  On a readable existing pair, the document's vectors are appended
(`existing_index.add(index.reconstruct_n(0, index.ntotal))`) and the
document metadata is stored under its id (`existing_meta['documents'][doc_id]
= metadata`).  Any failure in the `try:` block falls into the bare `except:`
which builds a fresh one-document metadata structure; when the index had
already been merged before the metadata parse failed (`metaCorrupt`), the
published index keeps the old vectors while the metadata forgets them. -/
def mergeDocument (load : LoadResult) (doc_id : String) (dm : DocMeta)
    (vecs : List EmbeddingVector) (session_id : String) : SessionIndex :=
  match load with
  | .ok s =>
      { vectors := s.vectors ++ vecs
        session_id := s.session_id
        documents := upsert s.documents doc_id dm }
  | .metaCorrupt s =>
      { vectors := s.vectors ++ vecs
        session_id := session_id
        documents := [(doc_id, dm)] }
  | _ =>
      { vectors := vecs
        session_id := session_id
        documents := [(doc_id, dm)] }

/-- The publish decision of the embed worker (handler.py line 107):
only `if index.ntotal > 0` are the session index and metadata written;
otherwise nothing is uploaded (the 400 `No embeddings generated` path).
`some s` is the session record uploaded, `none` means no write. -/
def embedWorkerPublish (load : LoadResult) (bucket session_id doc_id : String)
    (pages : List PageInput) : Option SessionIndex :=
  match buildDocument bucket pages with
  | (vecs, recs) =>
      if 0 < vecs.length then
        some (mergeDocument load doc_id
          { document_id := doc_id, user_id := session_id, images := recs }
          vecs session_id)
      else none

/-- One document-processing invocation as seen by a session store. -/
structure DocInput where
  bucket : String
  session_id : String
  doc_id : String
  pages : List PageInput
deriving DecidableEq, Repr

/-- Sequential (non-concurrent) embed-worker invocations against one
session: each invocation loads whatever the previous one published
(`.absent` before the first publish) and publishes its merge result. -/
def runMerges (docsIn : List DocInput) : Option SessionIndex :=
  docsIn.foldl
    (fun store d =>
      let load := match store with
        | none => LoadResult.absent
        | some s => LoadResult.ok s
      match embedWorkerPublish load d.bucket d.session_id d.doc_id d.pages with
      | some s => some s
      | none => store)
    none

/-- All position fields recorded across the session metadata, documents in
insertion order, records in order. -/
def allIndexFields (s : SessionIndex) : List Nat :=
  (s.documents.map (fun p => p.2.images.map ImageRec.index)).flatten


/-! ## Search router (`search-router/src/handler.py`) -/

/-- Image bytes handed to the Answer Service (opaque payload). -/
abbrev ImageBytes := String

/-- One entry of the `sources` list of a successful search response. -/
structure Source where
  bucket : String
  key : String
  document_id : String
  score : ℚ
deriving DecidableEq, Repr

/-- The parts of the HTTP response the claims are about. -/
structure SearchResponse where
  statusCode : Nat
  answer : Option String
  sources : List Source
  totalResults : Nat
deriving DecidableEq, Repr

/-- Squared Euclidean distance, the metric of `faiss.IndexFlatL2`. -/
def sqDist (q v : EmbeddingVector) : ℚ :=
  ((q.zip v).map (fun p => (p.1 - p.2) ^ 2)).sum

/-- Comparison of search hits by distance. -/
def hitLE (a b : Nat × ℚ) : Prop := a.2 ≤ b.2

instance : DecidableRel hitLE := fun a b =>
  inferInstanceAs (Decidable (a.2 ≤ b.2))

instance : IsTotal (Nat × ℚ) hitLE := ⟨fun a b => le_total a.2 b.2⟩

instance : IsTrans (Nat × ℚ) hitLE := ⟨fun _ _ _ => le_trans⟩

/-- `index.search(query, k)` on a flat L2 index: every stored position paired
with its squared distance to the query, ordered by increasing distance,
truncated to the `k` nearest.  Result entries are `(position, distance)`. -/
def faissSearch (vecs : List EmbeddingVector) (q : EmbeddingVector) (k : Nat) :
    List (Nat × ℚ) :=
  (List.insertionSort hitLE ((vecs.enum).map (fun p => (p.1, sqDist q p.2)))).take k

/-- The metadata scan of the result loop (handler.py lines 159-175): walk
`documents` in insertion order and inside each document walk `images` in
order; the first record whose `index` field equals the hit position wins. -/
def findRecord (docs : List (String × DocMeta)) (idx : Nat) :
    Option (String × ImageRec) :=
  match docs with
  | [] => none
  | (doc_id, dm) :: rest =>
      match dm.images.find? (fun img => img.index = idx) with
      | some img => some (doc_id, img)
      | none => findRecord rest idx

/-- The result loop (handler.py lines 149-178): for each returned position in
order, resolve it against the metadata (positions with no matching record are
dropped) and stop as soon as `top_k` sources have been collected.  The second
argument is the remaining budget (`top_k` minus the sources already taken). -/
def resolveResults (docs : List (String × DocMeta)) :
    List (Nat × ℚ) → Nat → List Source
  | _, 0 => []
  | [], _ + 1 => []
  | (idx, d) :: rest, k + 1 =>
      match findRecord docs idx with
      | some (doc_id, img) =>
          { bucket := img.bucket, key := img.key,
            document_id := doc_id, score := d } :: resolveResults docs rest k
      | none => resolveResults docs rest (k + 1)

/-- The deterministic no-image answer of `generate_answer_with_gemini`. -/
def noImagesAnswer : String := "関連する文書画像が見つかりませんでした。"

/-- `generate_answer_with_gemini(query, images)` (handler.py lines 454-488):
with no images it returns the fixed string; otherwise it calls the external
Gemini model and, on any exception, executes `raise e`, so the service error
propagates to the caller. -/
def generate_answer_with_gemini
    (svc : String → List ImageBytes → Except String String)
    (query : String) (images : List ImageBytes) : Except String String :=
  if images.isEmpty then .ok noImagesAnswer
  else svc query images

/-- The search handler after request validation (handler.py lines 106-233):
`loaded` is the outcome of `load_session_index`, `qe` the query embedding
(`none` models a `None` return), `download` the per-key image fetch used for
the top-3 Gemini inputs (failures are skipped), `svc` the Gemini call.
An exception escaping `generate_answer_with_gemini` is caught by the outer
`except` which turns the whole request into a 500 error response. -/
def searchHandler
    (loaded : Option (List EmbeddingVector × List (String × DocMeta)))
    (qe : Option EmbeddingVector)
    (download : String → Option ImageBytes)
    (svc : String → List ImageBytes → Except String String)
    (queryText : String) (topK : Nat) : SearchResponse :=
  match loaded with
  | none => { statusCode := 404, answer := none, sources := [], totalResults := 0 }
  | some (vecs, docs) =>
      if vecs.length = 0 then
        { statusCode := 404, answer := none, sources := [], totalResults := 0 }
      else
        match qe with
        | none => { statusCode := 500, answer := none, sources := [], totalResults := 0 }
        | some q =>
            let hits := faissSearch vecs q (min topK vecs.length)
            let results := resolveResults docs hits topK
            let images := (results.take 3).filterMap (fun s => download s.key)
            match generate_answer_with_gemini svc queryText images with
            | .ok ans =>
                { statusCode := 200, answer := some ans,
                  sources := results, totalResults := results.length }
            | .error _ =>
                { statusCode := 500, answer := none, sources := [], totalResults := 0 }

/-! ## Batch index merger (`index-merger/src/handler.py`) -/

/-- A stored Faiss index file: its dimension (`index.d`) and its vectors
in position order (`index.reconstruct(i)` for `i < index.ntotal`). -/
structure StoredIndex where
  d : Nat
  vecs : List EmbeddingVector
deriving DecidableEq, Repr

/-- One image record of the master metadata after the merger adds
`global_index = offset + img['index']` to a copy of the source record. -/
structure MergedImage where
  key : String
  bucket : String
  index : Nat
  page_file : String
  global_index : Nat
deriving DecidableEq, Repr

/-- One per-document entry of `master_metadata['documents']`. -/
structure MergedDoc where
  user_id : String
  images : List MergedImage
  original_index : String
deriving DecidableEq, Repr

/-- One entry of `master_metadata['source_indexes']`. -/
structure SourceEntry where
  key : String
  vectors : Nat
  document_id : String
deriving DecidableEq, Repr

/-- The growing master index plus master metadata during a rebuild. -/
structure MasterState where
  vectors : List EmbeddingVector
  documents : List (String × MergedDoc)
  source_indexes : List SourceEntry
deriving DecidableEq, Repr

/-- `master_metadata['documents'][doc_id] = {...}`: Python dict upsert. -/
def upsertMerged (l : List (String × MergedDoc)) (k : String) (v : MergedDoc) :
    List (String × MergedDoc) :=
  match l with
  | [] => [(k, v)]
  | (k', v') :: rest =>
      if k' = k then (k, v) :: rest else (k', v') :: upsertMerged rest k v

/-- One listed source shard: its index-file key, its S3 `LastModified`
timestamp, and the downloaded contents (`none` where the download,
`faiss.read_index`, or the metadata JSON parse would raise). -/
structure ShardInfo where
  index_key : String
  last_modified : Nat
  indexFile : Option StoredIndex
  metaFile : Option DocMeta
deriving DecidableEq, Repr

/-- The dimension constant of the embed worker (`dimension = 1536`,
embed-worker handler.py line 64). -/
def embedWorkerDimension : Nat := 1536

/-- The dimension constant of the merger (`dimension = 1024`,
index-merger handler.py line 70). -/
def mergerDimension : Nat := 1024

/-- The per-vector extraction loop (index-merger handler.py lines 102-104):
`vectors = np.zeros((ntotal, dimension))` and `vectors[i] =
temp_index.reconstruct(i)`.  The NumPy row assignment accepts a row of
length `dimension` unchanged, broadcasts a length-1 row across the full
width, and raises a `ValueError` (here `none`) for every other length. -/
def extractVectors (dimension : Nat) (f : StoredIndex) :
    Option (List EmbeddingVector) :=
  if f.d = dimension then some f.vecs
  else if f.d = 1 then
    some (f.vecs.map (fun v => List.replicate dimension (v.headD 0)))
  else none

/-- The body of the per-shard `try:` block (index-merger handler.py lines
79-139).  A failed download or parse, or a raise inside extraction, is
caught by the per-shard `except` and leaves the master state untouched;
a shard with `ntotal == 0` adds neither vectors nor metadata (all metadata
updates sit inside `if temp_index.ntotal > 0:`). -/
def processShard (dimension : Nat) (m : MasterState) (sh : ShardInfo) :
    MasterState :=
  match sh.indexFile, sh.metaFile with
  | some f, some meta =>
      if 0 < f.vecs.length then
        match extractVectors dimension f with
        | some vs =>
            let offset := m.vectors.length
            let updated := meta.images.map (fun img =>
              { key := img.key, bucket := img.bucket, index := img.index,
                page_file := img.page_file,
                global_index := offset + img.index })
            { vectors := m.vectors ++ vs
              documents := upsertMerged m.documents meta.document_id
                { user_id := meta.user_id, images := updated,
                  original_index := sh.index_key }
              source_indexes := m.source_indexes ++
                [{ key := sh.index_key, vectors := f.vecs.length,
                   document_id := meta.document_id }] }
        | none => m
      else m
  | _, _ => m

/-- The listing filter (index-merger handler.py lines 39-55): skip keys
containing `master/`, keep keys ending in `/index.index`. -/
def isEligibleKey (k : String) : Bool :=
  !(strContains k "master/") && strEndsWith k "/index.index"

/-- The eligible shards of a bucket listing, in listing order. -/
def eligibleShards (listing : List ShardInfo) : List ShardInfo :=
  listing.filter (fun sh => isEligibleKey sh.index_key)

/-- Ordering of shards by `LastModified`. -/
def shardLE (a b : ShardInfo) : Prop := a.last_modified ≤ b.last_modified

instance : DecidableRel shardLE := fun a b =>
  inferInstanceAs (Decidable (a.last_modified ≤ b.last_modified))

instance : IsTotal ShardInfo shardLE := ⟨fun _ _ => Nat.le_total _ _⟩

instance : IsTrans ShardInfo shardLE := ⟨fun _ _ _ => Nat.le_trans⟩

/-- `all_indexes.sort(key=lambda x: x['last_modified'])`: a stable sort by
ascending timestamp. -/
def sortShards (l : List ShardInfo) : List ShardInfo :=
  List.insertionSort shardLE l

/-- The empty master state (`faiss.IndexFlatL2(dimension)` plus the fresh
`master_metadata` skeleton; the wall-clock `merged_at` field carries no
index data and is not modelled). -/
def initialMaster : MasterState :=
  { vectors := [], documents := [], source_indexes := [] }

/-- The master state after folding every eligible shard in sorted order. -/
def mergeAllShards (listing : List ShardInfo) : MasterState :=
  (sortShards (eligibleShards listing)).foldl (processShard mergerDimension)
    initialMaster

/-- The number of vectors every eligible source shard together contributed
to the rebuilt master. -/
def mergedVectorCount (listing : List ShardInfo) : Nat :=
  (mergeAllShards listing).vectors.length

/-- The three terminal outcomes of the merger handler: the early
`No indexes to merge` return, a publish of the rebuilt master, or the final
`No vectors merged` 400 return. -/
inductive MergeOutcome where
  | noIndexes
  | published (m : MasterState)
  | noVectors
deriving DecidableEq, Repr

/-- The merger handler (index-merger handler.py lines 12-182): empty listing
returns early; otherwise the sorted eligible shards are folded into a fresh
master which is uploaded only `if master_index.ntotal > 0`. -/
def batchMergeHandler (listing : List ShardInfo) : MergeOutcome :=
  if (eligibleShards listing).isEmpty then .noIndexes
  else if 0 < (mergeAllShards listing).vectors.length then
    .published (mergeAllShards listing)
  else .noVectors

/-- Effect of a merger run on the previously published master
(`private/master/latest.index` + metadata): only a `published` outcome
overwrites it. -/
def publishEffect (prev : Option MasterState) (out : MergeOutcome) :
    Option MasterState :=
  match out with
  | .published m => some m
  | _ => prev

/-! ## Theorems -/

lemma buildPages_aligned (bucket : String) (pages : List PageInput) :
    ∀ (vecs : List EmbeddingVector) (recs : List ImageRec),
      recs.length = vecs.length →
      recs.map ImageRec.index = List.range recs.length →
      (buildPages bucket vecs recs pages).2.length
          = (buildPages bucket vecs recs pages).1.length
        ∧ (buildPages bucket vecs recs pages).2.map ImageRec.index
          = List.range (buildPages bucket vecs recs pages).2.length := by
  induction pages with
  | nil => intro vecs recs h1 h2; exact ⟨h1, h2⟩
  | cons p rest ih =>
      intro vecs recs h1 h2
      by_cases hpng : strEndsWith p.key ".png"
      · cases hemb : p.embedding with
        | some v =>
            simp only [buildPages, hpng, hemb, if_true]
            apply ih
            · simp [h1]
            · rw [List.map_append, h2]
              simp [List.range_succ]
        | none =>
            simp only [buildPages, hpng, hemb, if_true]
            exact ih vecs recs h1 h2
      · simp only [buildPages, hpng]
        simp only [Bool.false_eq_true, if_false]
        exact ih vecs recs h1 h2

lemma buildPages_count (bucket : String) (pages : List PageInput) :
    ∀ (vecs : List EmbeddingVector) (recs : List ImageRec),
      (buildPages bucket vecs recs pages).1.length
        = vecs.length
          + pages.countP (fun p => strEndsWith p.key ".png" && p.embedding.isSome) := by
  induction pages with
  | nil => intro vecs recs; simp [buildPages]
  | cons p rest ih =>
      intro vecs recs
      by_cases hpng : strEndsWith p.key ".png"
      · cases hemb : p.embedding with
        | some v =>
            simp only [buildPages, hpng, hemb, if_true]
            rw [ih]
            simp [List.countP_cons, hpng, hemb]
            omega
        | none =>
            simp only [buildPages, hpng, hemb, if_true]
            rw [ih]
            simp [List.countP_cons, hpng, hemb]
      · simp only [buildPages, hpng, Bool.false_eq_true, if_false]
        rw [ih]
        simp [List.countP_cons, hpng]

/-- C10: the embed worker's document build silently skips pages whose
embedding generation returned `None` (the vector count equals the count of
`.png` pages with a successful embedding, and the build never aborts);
the number of metadata records equals the number of stored vectors, and
the `j`-th record's `index` field equals `j` (stated as: the list of
`index` fields is `[0, 1, ..., len(records) - 1]`), so record order, the
`index` field and the vector positions stay aligned even when some pages
fail. -/
theorem embed_build_records_aligned (bucket : String) (pages : List PageInput) :
    (buildDocument bucket pages).2.length = (buildDocument bucket pages).1.length
    ∧ (buildDocument bucket pages).2.map ImageRec.index
        = List.range (buildDocument bucket pages).2.length
    ∧ (buildDocument bucket pages).1.length
        = pages.countP (fun p => strEndsWith p.key ".png" && p.embedding.isSome) := by
  have h := buildPages_aligned bucket pages [] [] rfl rfl
  have hc := buildPages_count bucket pages [] []
  exact ⟨h.1, h.2, by simpa using hc⟩

/-- C8: a document whose processing yields zero embedding vectors is never
published: the embed worker writes neither an index blob nor a metadata
blob for it (`if index.ntotal > 0` guards every upload; the handler falls
through to the 400 `No embeddings generated` return). -/
theorem zero_vector_document_not_published (load : LoadResult)
    (bucket session_id doc_id : String) (pages : List PageInput)
    (h : (buildDocument bucket pages).1 = []) :
    embedWorkerPublish load bucket session_id doc_id pages = none := by
  unfold embedWorkerPublish
  rw [show buildDocument bucket pages = ([], (buildDocument bucket pages).2) from
    Prod.ext h rfl]
  simp

theorem zero_vector_document_not_published_witness :
    embedWorkerPublish .absent "bkt" "sess" "doc"
      [⟨"doc-page0001.png", none⟩, ⟨"notes.txt", some [1]⟩] = none :=
  zero_vector_document_not_published .absent "bkt" "sess" "doc"
    [⟨"doc-page0001.png", none⟩, ⟨"notes.txt", some [1]⟩] (by decide)

/-- C1: evaluation of two sequential merges (document `A` with 2 vectors,
then document `B` with 1 vector) into one fresh session.  The session
index does end up with `Σvᵢ = 3` vectors, but the session metadata records
carry only the per-document local `index` fields — `[0, 1]` for `A` and
`[0]` for `B` — and no `global_index` is ever computed in the session-merge
path, so the recorded positions `[0, 1, 0]` duplicate `0` instead of
forming the contiguous range `[0, 3)` the claim requires. -/
theorem sequential_merge_records_only_local_indices :
    (runMerges
      [⟨"bkt", "sess", "A",
          [⟨"sessions/sess/images/A-page0001.png", some [1]⟩,
           ⟨"sessions/sess/images/A-page0002.png", some [2]⟩]⟩,
       ⟨"bkt", "sess", "B",
          [⟨"sessions/sess/images/B-page0001.png", some [3]⟩]⟩]).map
      (fun s => (s.vectors.length, allIndexFields s))
      = some (3, [0, 1, 0]) := by
  decide

/-- C2: evaluation of merging the same document id `A` twice into one
session.  The second merge is not rejected: the document's vector is
appended again (the session ends with 2 copies) and the metadata entry for
`A` is silently overwritten with the new record list, contradicting the
claim that a duplicate id leaves the session index and metadata
unchanged. -/
theorem duplicate_document_merge_appends_and_overwrites :
    (runMerges
      [⟨"bkt", "sess", "A", [⟨"sessions/sess/images/A-page0001.png", some [1]⟩]⟩,
       ⟨"bkt", "sess", "A", [⟨"sessions/sess/images/A-page0001.png", some [5]⟩]⟩]).map
      (fun s => (s.vectors, s.documents))
      = some ([[1], [5]],
          [("A", ⟨"A", "sess",
            [⟨"sessions/sess/images/A-page0001.png", "bkt", 0, "A-page0001.png"⟩]⟩)]) := by
  decide

/-- C3: evaluation of a merge against a session whose stored index exists
but is unreadable (`faiss.read_index` raising is the `indexCorrupt` load
outcome).  The bare `except:` swallows the failure and the merge proceeds
from an empty index: the handler publishes a session containing only the
new document's single vector, instead of failing with a `LoadCorrupted`
error and leaving the store untouched — the previously merged vectors are
orphaned. -/
theorem corrupt_session_load_silently_starts_empty :
    embedWorkerPublish .indexCorrupt "bkt" "sess" "A"
      [⟨"sessions/sess/images/A-page0001.png", some [7]⟩]
      = some ⟨[[7]], "sess",
          [("A", ⟨"A", "sess",
            [⟨"sessions/sess/images/A-page0001.png", "bkt", 0, "A-page0001.png"⟩]⟩)]⟩ := by
  decide

/-- C4: evaluation of a search in which the session index loads (1 vector),
the query embedding succeeds, one source resolves, its image downloads, and
the Answer Service (Gemini) call fails.  `generate_answer_with_gemini`
re-raises the service error (`raise e`), the outer `except` catches it, and
the whole search becomes a 500 error response that carries no sources and
no fallback answer — contradicting the claim of a successful response with
the resolved sources and a deterministic fallback string. -/
theorem answer_service_failure_fails_whole_search :
    searchHandler
      (some ([[1]],
        [("A", ⟨"A", "sess", [⟨"sessions/sess/images/A-page0001.png", "bkt", 0,
          "A-page0001.png"⟩]⟩)]))
      (some [1])
      (fun _ => some "imagebytes")
      (fun _ _ => .error "Gemini error")
      "what is this" 5
      = { statusCode := 500, answer := none, sources := [], totalResults := 0 } := by
  decide

lemma sqDist_nonneg (q v : EmbeddingVector) : 0 ≤ sqDist q v := by
  unfold sqDist
  apply List.sum_nonneg
  intro x hx
  obtain ⟨p, _, rfl⟩ := List.mem_map.mp hx
  exact sq_nonneg _

lemma faissSearch_length (vecs : List EmbeddingVector) (q : EmbeddingVector)
    (k : Nat) : (faissSearch vecs q k).length = min k vecs.length := by
  unfold faissSearch
  rw [List.length_take, (List.perm_insertionSort hitLE _).length_eq,
    List.length_map, List.enum_length]

lemma faissSearch_sorted (vecs : List EmbeddingVector) (q : EmbeddingVector)
    (k : Nat) : List.Sorted hitLE (faissSearch vecs q k) :=
  List.Pairwise.sublist (List.take_sublist _ _)
    (List.sorted_insertionSort hitLE _)

lemma faissSearch_mem_nonneg (vecs : List EmbeddingVector)
    (q : EmbeddingVector) (k : Nat) : ∀ x ∈ faissSearch vecs q k, 0 ≤ x.2 := by
  intro x hx
  have hx1 : x ∈ List.insertionSort hitLE
      ((vecs.enum).map (fun p => (p.1, sqDist q p.2))) :=
    (List.take_sublist _ _).subset hx
  have hx2 := ((List.perm_insertionSort hitLE _).mem_iff).mp hx1
  obtain ⟨p, _, rfl⟩ := List.mem_map.mp hx2
  exact sqDist_nonneg _ _

lemma resolveResults_scores_sublist (docs : List (String × DocMeta)) :
    ∀ (hits : List (Nat × ℚ)) (k : Nat),
      List.Sublist ((resolveResults docs hits k).map Source.score)
        (hits.map Prod.snd) := by
  intro hits
  induction hits with
  | nil => intro k; cases k <;> simp [resolveResults]
  | cons hd tl ih =>
      intro k
      cases k with
      | zero => simp [resolveResults]
      | succ k' =>
          obtain ⟨idx, d⟩ := hd
          cases hfind : findRecord docs idx with
          | some pr =>
              obtain ⟨doc_id, img⟩ := pr
              simp only [resolveResults, hfind, List.map_cons]
              exact (ih k').cons₂ _
          | none =>
              simp only [resolveResults, hfind, List.map_cons]
              exact (ih (k' + 1)).cons _

lemma resolveResults_length_le (docs : List (String × DocMeta))
    (hits : List (Nat × ℚ)) (k : Nat) :
    (resolveResults docs hits k).length ≤ hits.length := by
  have h := (resolveResults_scores_sublist docs hits k).length_le
  simpa using h

/-- C5: for every search against a loaded index of `count` vectors, the
returned `sources` list has at most `min(topK, count)` entries, every
returned distance is non-negative, and the distances are non-decreasing in
the returned order (both distance facts are packaged as sortedness of the
score list with `0` prepended). -/
theorem search_sources_bounded_and_sorted
    (vecs : List EmbeddingVector) (docs : List (String × DocMeta))
    (qe : Option EmbeddingVector) (download : String → Option ImageBytes)
    (svc : String → List ImageBytes → Except String String)
    (queryText : String) (topK : Nat) :
    (searchHandler (some (vecs, docs)) qe download svc queryText topK).sources.length
        ≤ min topK vecs.length
    ∧ List.Sorted (· ≤ ·)
        ((0 : ℚ) ::
          ((searchHandler (some (vecs, docs)) qe download svc queryText
            topK).sources.map Source.score)) := by
  by_cases hv : vecs.length = 0
  · simp [searchHandler, hv]
  · cases qe with
    | none => simp [searchHandler, hv]
    | some q =>
        have hsub := resolveResults_scores_sublist docs
          (faissSearch vecs q (min topK vecs.length)) topK
        have hlen : (resolveResults docs
            (faissSearch vecs q (min topK vecs.length)) topK).length
              ≤ min topK vecs.length := by
          have h1 := resolveResults_length_le docs
            (faissSearch vecs q (min topK vecs.length)) topK
          rw [faissSearch_length] at h1
          omega
        have hnn : ∀ y ∈ (resolveResults docs
            (faissSearch vecs q (min topK vecs.length)) topK).map Source.score,
            (0 : ℚ) ≤ y := by
          intro y hy
          have hy2 := hsub.subset hy
          obtain ⟨x, hx, rfl⟩ := List.mem_map.mp hy2
          exact faissSearch_mem_nonneg vecs q (min topK vecs.length) x hx
        have hsorted : List.Sorted (· ≤ ·)
            ((resolveResults docs
              (faissSearch vecs q (min topK vecs.length)) topK).map Source.score) := by
          have hs1 : List.Sorted (· ≤ ·)
              ((faissSearch vecs q (min topK vecs.length)).map Prod.snd) :=
            List.Pairwise.map Prod.snd (fun _ _ h => h)
              (faissSearch_sorted vecs q (min topK vecs.length))
          exact List.Pairwise.sublist hsub hs1
        have hall : List.Sorted (· ≤ ·)
            ((0 : ℚ) :: (resolveResults docs
              (faissSearch vecs q (min topK vecs.length)) topK).map Source.score) :=
          List.sorted_cons.mpr ⟨hnn, hsorted⟩
        simp only [searchHandler, hv, if_false]
        cases hg : generate_answer_with_gemini svc queryText
            (((resolveResults docs (faissSearch vecs q (min topK vecs.length))
              topK).take 3).filterMap fun s => download s.key) with
        | error e => simp [hg]
        | ok ans =>
            simp only [hg]
            exact ⟨hlen, hall⟩

lemma sorted_perm_nodup_timestamps_eq :
    ∀ (l₁ l₂ : List ShardInfo), l₁.Perm l₂ →
      l₁.Sorted shardLE → l₂.Sorted shardLE →
      (l₁.map ShardInfo.last_modified).Nodup → l₁ = l₂ := by
  intro l₁
  induction l₁ with
  | nil =>
      intro l₂ hp _ _ _
      exact (hp.symm.eq_nil).symm ▸ rfl
  | cons a t₁ ih =>
      intro l₂ hp hs₁ hs₂ hnd
      cases l₂ with
      | nil => exact absurd hp.eq_nil (by simp)
      | cons b t₂ =>
          by_cases hab : a = b
          · subst hab
            have hp' := hp.cons_inv
            have hnd' : (t₁.map ShardInfo.last_modified).Nodup := by
              rw [List.map_cons] at hnd
              exact (List.nodup_cons.mp hnd).2
            rw [ih t₂ hp' hs₁.of_cons hs₂.of_cons hnd']
          · exfalso
            have ha2 : a ∈ t₂ := by
              have h := hp.mem_iff.mp (List.mem_cons_self a t₁)
              rcases List.mem_cons.mp h with h' | h'
              · exact absurd h' hab
              · exact h'
            have hb1 : b ∈ t₁ := by
              have h := hp.symm.mem_iff.mp (List.mem_cons_self b t₂)
              rcases List.mem_cons.mp h with h' | h'
              · exact absurd h'.symm hab
              · exact h'
            have hba : b.last_modified ≤ a.last_modified :=
              (List.sorted_cons.mp hs₂).1 a ha2
            have hab' : a.last_modified ≤ b.last_modified :=
              (List.sorted_cons.mp hs₁).1 b hb1
            have heq : a.last_modified = b.last_modified :=
              Nat.le_antisymm hab' hba
            have hmem : a.last_modified ∈ t₁.map ShardInfo.last_modified :=
              List.mem_map.mpr ⟨b, hb1, heq.symm⟩
            rw [List.map_cons] at hnd
            exact (List.nodup_cons.mp hnd).1 hmem

/-- C6: two batch-merge runs over listings holding the same shards (the
bucket listings are permutations of each other, carrying identical keys,
last-modified timestamps and contents) with pairwise-distinct timestamps
produce the same outcome, and in particular identical `global_index`
assignments in the published master metadata: the stable sort by ascending
last-modified timestamp makes the processing order, and with it every
`offset + index` computation, deterministic. -/
theorem batch_merge_deterministic (L₁ L₂ : List ShardInfo)
    (hperm : L₁.Perm L₂)
    (hnd : ((eligibleShards L₁).map ShardInfo.last_modified).Nodup) :
    batchMergeHandler L₁ = batchMergeHandler L₂ := by
  have hpf : (eligibleShards L₁).Perm (eligibleShards L₂) := hperm.filter _
  have hsortp : (sortShards (eligibleShards L₁)).Perm
      (sortShards (eligibleShards L₂)) :=
    (List.perm_insertionSort _ _).trans
      (hpf.trans (List.perm_insertionSort _ _).symm)
  have hnd₁ : ((sortShards (eligibleShards L₁)).map
      ShardInfo.last_modified).Nodup :=
    (((List.perm_insertionSort shardLE _).map _).nodup_iff).mpr hnd
  have hseq : sortShards (eligibleShards L₁) = sortShards (eligibleShards L₂) :=
    sorted_perm_nodup_timestamps_eq _ _ hsortp
      (List.sorted_insertionSort _ _) (List.sorted_insertionSort _ _) hnd₁
  have hemp : (eligibleShards L₁).isEmpty = (eligibleShards L₂).isEmpty := by
    have hl := hpf.length_eq
    cases e₁ : eligibleShards L₁ <;> cases e₂ : eligibleShards L₂ <;>
        rw [e₁, e₂] at hl <;> simp_all
  unfold batchMergeHandler mergeAllShards
  rw [hseq, hemp]

theorem batch_merge_deterministic_witness :
    batchMergeHandler
      [⟨"private/u1/d1/index.index", 1,
          some ⟨1024, [[1]]⟩, some ⟨"d1", "u1", [⟨"k1", "b", 0, "k1"⟩]⟩⟩,
       ⟨"private/u2/d2/index.index", 2,
          some ⟨1024, [[2]]⟩, some ⟨"d2", "u2", [⟨"k2", "b", 0, "k2"⟩]⟩⟩]
    = batchMergeHandler
      [⟨"private/u2/d2/index.index", 2,
          some ⟨1024, [[2]]⟩, some ⟨"d2", "u2", [⟨"k2", "b", 0, "k2"⟩]⟩⟩,
       ⟨"private/u1/d1/index.index", 1,
          some ⟨1024, [[1]]⟩, some ⟨"d1", "u1", [⟨"k1", "b", 0, "k1"⟩]⟩⟩] :=
  batch_merge_deterministic _ _ (by decide) (by decide)

/-- C7: a batch-merge run in which the eligible source shards together
contribute zero vectors (no eligible shards at all, or every shard failing
or empty) ends in the `No indexes to merge` or `No vectors merged` outcome
and performs no publish, leaving any previously published master index and
metadata unchanged. -/
theorem zero_contribution_preserves_master (listing : List ShardInfo)
    (h : mergedVectorCount listing = 0) (prev : Option MasterState) :
    publishEffect prev (batchMergeHandler listing) = prev := by
  unfold batchMergeHandler
  by_cases he : (eligibleShards listing).isEmpty = true
  · simp [he, publishEffect]
  · have h0 : ¬ 0 < (mergeAllShards listing).vectors.length := by
      unfold mergedVectorCount at h
      omega
    simp [he, h0, publishEffect]

theorem zero_contribution_preserves_master_witness :
    publishEffect (some ⟨[[9]], [], []⟩)
      (batchMergeHandler
        [⟨"private/u1/d1/index.index", 1, some ⟨1024, [[5]]⟩, none⟩])
      = some ⟨[[9]], [], []⟩ :=
  zero_contribution_preserves_master
    [⟨"private/u1/d1/index.index", 1, some ⟨1024, [[5]]⟩, none⟩]
    (by decide) (some ⟨[[9]], [], []⟩)

/-- C9 (amended): the batch merger builds its master with dimension 1024
while the embed worker builds 1536-dimension indexes; every non-empty
source shard whose stored index dimension is neither 1024 nor 1 raises
inside the per-vector extraction (the NumPy row assignment rejects the
length mismatch), the per-shard `except` catches it, and the shard
contributes zero vectors and zero metadata entries to the master.  (A
dimension-1 shard is the exception the original claim misses: NumPy
broadcasts its single component across the 1024-wide row.) -/
theorem wrong_dimension_shard_contributes_nothing (m : MasterState)
    (sh : ShardInfo) (f : StoredIndex) (hf : sh.indexFile = some f)
    (hd : f.d ≠ mergerDimension) (h1 : f.d ≠ 1) :
    processShard mergerDimension m sh = m
    ∧ embedWorkerDimension ≠ mergerDimension := by
  refine ⟨?_, by decide⟩
  unfold processShard
  rw [hf]
  cases hm : sh.metaFile with
  | none => rfl
  | some meta =>
      by_cases hv : 0 < f.vecs.length
      · simp [hv, extractVectors, hd, h1]
      · simp [hv]

theorem wrong_dimension_shard_contributes_nothing_witness :
    processShard mergerDimension initialMaster
      ⟨"private/u1/d9/index.index", 3, some ⟨1536, [[1]]⟩,
        some ⟨"d9", "u1", [⟨"k", "b", 0, "k"⟩]⟩⟩ = initialMaster
    ∧ embedWorkerDimension ≠ mergerDimension :=
  wrong_dimension_shard_contributes_nothing initialMaster
    ⟨"private/u1/d9/index.index", 3, some ⟨1536, [[1]]⟩,
      some ⟨"d9", "u1", [⟨"k", "b", 0, "k"⟩]⟩⟩
    ⟨1536, [[1]]⟩ rfl (by decide) (by decide)

/-- C9 counterexample: a non-empty source shard stored with dimension 1 —
different from the merger's 1024 — does NOT raise during extraction: the
NumPy assignment `vectors[i] = temp_index.reconstruct(i)` broadcasts the
single component across the whole 1024-wide row, so the shard contributes
its vector (broadcast) and its metadata entry to the master, refuting the
claim that every differing-dimension shard contributes nothing. -/
theorem dimension_one_shard_contributes :
    (1 : Nat) ≠ mergerDimension
    ∧ (processShard mergerDimension initialMaster
        ⟨"private/u1/d1/index.index", 3, some ⟨1, [[2]]⟩,
          some ⟨"d1", "u1", [⟨"k", "b", 0, "k"⟩]⟩⟩).vectors.length = 1
    ∧ (processShard mergerDimension initialMaster
        ⟨"private/u1/d1/index.index", 3, some ⟨1, [[2]]⟩,
          some ⟨"d1", "u1", [⟨"k", "b", 0, "k"⟩]⟩⟩).documents.length = 1 := by
  refine ⟨by decide, ?_, ?_⟩ <;> rfl
